import Mathlib

/-!
Verification of the notebook editor cell view model and structural edit
orchestration (src/vs/workbench/contrib/notebook/browser/notebookEditor.ts).

The development embeds the ViewCell class, the NotebookEditor structural
edit operations (insertEmptyNotebookCell, deleteNotebookCell), the scheduled
continuation of layoutElement, and onHide. External collaborators that are
part of the repository but not of this file (the WorkbenchList virtualized
list, the NotebookEditorModel document model, the marked renderer and the
monaco text model) are modelled from the specification and marked as such
in their doc comments.
-/

/-- Identity of a backing cell record: stands for the ICell object reference,
which indexOf and the document model compare by identity. -/
abbrev CellId := Nat

/-- Kind of a notebook cell, the cell_type field of an ICell record. -/
inductive CellType where
  | markdown
  | code
deriving DecidableEq, Repr

/-- Modelled from the spec: the external markdown renderer (marked, not under
src/) is a pure function of the source text; its output is abstracted as a
free constructor applied to the input string. -/
inductive Html where
  | render (text : String)
deriving DecidableEq, Repr

/-- State of a ViewCell. The wrapped backing record (this.cell) is identified
by cellId; the record fields cell_type, source and outputs are stored inline
because every access in the source goes through this.cell. The fields
textModel, html and dynamicHeight model the private members _textModel (as
the line list its getLinesContent returns), _html and _dynamicHeight, with
null rendered as none. -/
structure ViewCell where
  cellId : CellId
  cell_type : CellType
  source : List String
  outputs : List Nat
  isEditing : Bool
  textModel : Option (List String)
  html : Option Html
  dynamicHeight : Option Int
deriving DecidableEq, Repr

/-- Constructor ViewCell(cell, isEditing, modelService, modeService): the
private caches _textModel, _html and _dynamicHeight start as null. -/
def newViewCell (id : CellId) (ty : CellType) (src : List String)
    (outs : List Nat) (editing : Bool) : ViewCell :=
  { cellId := id, cell_type := ty, source := src, outputs := outs,
    isEditing := editing, textModel := none, html := none,
    dynamicHeight := none }

/-- ViewCell.lineCount: this.cell.source.length. -/
def ViewCell.lineCount (c : ViewCell) : Int :=
  (c.source.length : Int)

/-- ViewCell.hasDynamicHeight(): returns false when _dynamicHeight is not
null, true otherwise. -/
def ViewCell.hasDynamicHeight (c : ViewCell) : Bool :=
  match c.dynamicHeight with
  | some _ => false
  | none => true

/-- ViewCell.setDynamicHeight(height): latches the measured height. -/
def ViewCell.setDynamicHeight (c : ViewCell) (height : Int) : ViewCell :=
  { c with dynamicHeight := some height }

/-- JavaScript truthiness of a number-or-null value: null and 0 are falsy. -/
def jsTruthy : Option Int → Bool
  | none => false
  | some n => n != 0

/-- ViewCell.getHeight(lineHeight): the guard (if (this._dynamicHeight)) is a
JS truthiness test, so a stored 0 falls through to the heuristic; markdown
cells get the fixed placeholder 100, code cells get
Math.max(lineCount + 1, 5) * lineHeight + 16. -/
def ViewCell.getHeight (c : ViewCell) (lineHeight : Int) : Int :=
  if jsTruthy c.dynamicHeight then
    c.dynamicHeight.getD 0
  else if c.cell_type = CellType.markdown then
    100
  else
    max (c.lineCount + 1) 5 * lineHeight + 16

/-- ViewCell.setText(strs): stores each string with a newline appended and
clears the _html cache. The _dynamicHeight cache is not touched. -/
def ViewCell.setText (c : ViewCell) (strs : List String) : ViewCell :=
  { c with source := strs.map (fun s => s ++ "\n"), html := none }

/-- ViewCell.save(): when a text model exists and the cell is editing, copies
the model lines (with a newline appended to each) into this.cell.source.
The text model itself is left in place. -/
def ViewCell.save (c : ViewCell) : ViewCell :=
  match c.textModel with
  | some lines =>
    if c.isEditing then
      { c with source := lines.map (fun s => s ++ "\n") }
    else
      c
  | none => c

/-- ViewCell.getText(): this.cell.source joined with the empty separator. -/
def ViewCell.getText (c : ViewCell) : String :=
  String.join c.source

/-- ViewCell.getHTML(): for a markdown cell, returns the cached _html when
present, otherwise renders the current text and caches the result; for a
code cell returns null. The pair carries the returned value and the updated
cell, since getHTML writes the _html cache. -/
def ViewCell.getHTML (c : ViewCell) : Option Html × ViewCell :=
  if c.cell_type = CellType.markdown then
    match c.html with
    | some h => (some h, c)
    | none =>
      let h := Html.render c.getText
      (some h, { c with html := some h })
  else
    (none, c)

/-- Modelled from the spec: the external text buffer created by the model
service (not under src/) splits the seeded content into lines; its
getLinesContent returns the lines without terminators. -/
def bufferLinesOfContent (content : String) : List String :=
  content.splitOn "\n"

/-- ViewCell.getTextModel(): idempotent lazy construction of the text model
seeded from the joined source. The pair carries the model lines and the
updated cell. -/
def ViewCell.getTextModel (c : ViewCell) : List String × ViewCell :=
  match c.textModel with
  | some lines => (lines, c)
  | none =>
    let lines := bufferLinesOfContent c.getText
    (lines, { c with textModel := some lines })

/-- Operations the source performs on a ViewCell after construction: setText,
save and setDynamicHeight, the cache-filling getHTML and getTextModel, and
the isEditing assignments made by the renderers and by onHide. -/
inductive CellOp where
  | opSetText (strs : List String)
  | opSave
  | opSetDynamicHeight (h : Int)
  | opGetHTML
  | opGetTextModel
  | opSetEditing (b : Bool)
deriving DecidableEq

/-- Effect of one cell operation on the cell state. -/
def applyCellOp (c : ViewCell) : CellOp → ViewCell
  | CellOp.opSetText strs => c.setText strs
  | CellOp.opSave => c.save
  | CellOp.opSetDynamicHeight h => c.setDynamicHeight h
  | CellOp.opGetHTML => (c.getHTML).2
  | CellOp.opGetTextModel => (c.getTextModel).2
  | CellOp.opSetEditing b => { c with isEditing := b }

/-- Effect of a sequence of cell operations, first operation first. -/
def applyCellOps (c : ViewCell) (ops : List CellOp) : ViewCell :=
  ops.foldl applyCellOp c

/-- Helper: an operation other than setDynamicHeight leaves the
_dynamicHeight member untouched. -/
theorem applyCellOp_dynamicHeight_eq (c : ViewCell) (op : CellOp)
    (hop : ∀ x, op ≠ CellOp.opSetDynamicHeight x) :
    (applyCellOp c op).dynamicHeight = c.dynamicHeight := by
  cases op with
  | opSetText strs => rfl
  | opSave =>
    show (ViewCell.save c).dynamicHeight = c.dynamicHeight
    unfold ViewCell.save
    cases c.textModel with
    | none => rfl
    | some lines =>
      by_cases hed : c.isEditing <;> simp [hed]
  | opSetDynamicHeight h => exact absurd rfl (hop h)
  | opGetHTML =>
    show (ViewCell.getHTML c).2.dynamicHeight = c.dynamicHeight
    unfold ViewCell.getHTML
    by_cases hty : c.cell_type = CellType.markdown
    · cases c.html with
      | none => simp [hty]
      | some h => simp [hty]
    · simp [hty]
  | opGetTextModel =>
    show (ViewCell.getTextModel c).2.dynamicHeight = c.dynamicHeight
    unfold ViewCell.getTextModel
    cases c.textModel with
    | none => rfl
    | some lines => rfl
  | opSetEditing b => rfl

/-- Helper: the pending-measurement flag is false exactly when _dynamicHeight
is not null. -/
theorem hasDynamicHeight_eq_false_iff (c : ViewCell) :
    c.hasDynamicHeight = false ↔ c.dynamicHeight ≠ none := by
  unfold ViewCell.hasDynamicHeight
  cases c.dynamicHeight <;> simp

/-- Helper: once latched, a single operation cannot bring the flag back. -/
theorem applyCellOp_keeps_latched (c : ViewCell) (op : CellOp)
    (hc : c.hasDynamicHeight = false) :
    (applyCellOp c op).hasDynamicHeight = false := by
  rw [hasDynamicHeight_eq_false_iff] at hc ⊢
  by_cases hset : ∃ x, op = CellOp.opSetDynamicHeight x
  · obtain ⟨x, rfl⟩ := hset
    simp [applyCellOp, ViewCell.setDynamicHeight]
  · push_neg at hset
    rw [applyCellOp_dynamicHeight_eq c op (fun x => hset x)]
    exact hc

/-- Concrete 10-line code cell used as witness input for the height claims. -/
def exCellC2 : ViewCell :=
  newViewCell 1 CellType.code (List.replicate 10 "x") [] false

/-- C2: before any measurement is latched, getHeight(h) returns the
heuristic: the fixed placeholder 100 for markdown kind and
max(lineCount + 1, 5) * h + 16 for code kind; after a measurement of 300 is
latched via setDynamicHeight, every subsequent getHeight call returns 300
regardless of the line-height argument. -/
theorem height_latch_law (c : ViewCell) (h hr : Int)
    (hinit : c.dynamicHeight = none) :
    (c.cell_type = CellType.markdown → c.getHeight h = 100) ∧
    (c.cell_type = CellType.code →
      c.getHeight h = max (c.lineCount + 1) 5 * h + 16) ∧
    (c.setDynamicHeight 300).getHeight hr = 300 := by
  refine ⟨?_, ?_, ?_⟩
  · intro hty
    simp [ViewCell.getHeight, jsTruthy, hinit, hty]
  · intro hty
    have : c.cell_type ≠ CellType.markdown := by
      rw [hty]; intro hcon; cases hcon
    simp [ViewCell.getHeight, jsTruthy, hinit, this]
  · simp [ViewCell.getHeight, ViewCell.setDynamicHeight, jsTruthy]

/-- Witness for C2: the 10-line code cell with line height 18 measures 214
before latching; after latching 300 the answer is 300 for any hint. -/
theorem height_latch_law_witness :
    exCellC2.getHeight 18 = 214 ∧
    (exCellC2.setDynamicHeight 300).getHeight 999 = 300 := by
  have hmain := height_latch_law exCellC2 18 999 rfl
  refine ⟨?_, hmain.2.2⟩
  rw [hmain.2.1 rfl]
  decide

/-- Concrete latched code cell used as witness input for the flag claim. -/
def exCellC3 : ViewCell :=
  newViewCell 2 CellType.code ["print(1)"] [] false

/-- C3: hasDynamicHeight is true on a freshly constructed cell, flips to
false on setDynamicHeight, stays unchanged under every operation that is not
a setDynamicHeight, and once false no sequence of operations (in particular
one containing setText) ever makes it true again. -/
theorem pending_measurement_flag (c : ViewCell) (ops : List CellOp) (h : Int)
    (hid : CellId) (ty : CellType) (src : List String) (outs : List Nat)
    (ed : Bool) :
    (newViewCell hid ty src outs ed).hasDynamicHeight = true ∧
    (c.setDynamicHeight h).hasDynamicHeight = false ∧
    (c.hasDynamicHeight = false →
      (applyCellOps c ops).hasDynamicHeight = false) ∧
    ((∀ x, CellOp.opSetDynamicHeight x ∉ ops) →
      (applyCellOps c ops).hasDynamicHeight = c.hasDynamicHeight) := by
  refine ⟨rfl, rfl, ?_, ?_⟩
  · intro hc
    induction ops generalizing c with
    | nil => exact hc
    | cons op rest ih =>
      exact ih (applyCellOp c op) (applyCellOp_keeps_latched c op hc)
  · intro hnone
    induction ops generalizing c with
    | nil => rfl
    | cons op rest ih =>
      have hop : ∀ x, op ≠ CellOp.opSetDynamicHeight x := by
        intro x hcon
        exact (hnone x) (by rw [← hcon]; exact List.mem_cons_self op rest)
      have hrest : ∀ x, CellOp.opSetDynamicHeight x ∉ rest := by
        intro x hcon
        exact (hnone x) (List.mem_cons_of_mem op hcon)
      have hstep : (applyCellOp c op).hasDynamicHeight = c.hasDynamicHeight := by
        unfold ViewCell.hasDynamicHeight
        rw [applyCellOp_dynamicHeight_eq c op hop]
      calc (applyCellOps (applyCellOp c op) rest).hasDynamicHeight
          = (applyCellOp c op).hasDynamicHeight := ih (applyCellOp c op) hrest
        _ = c.hasDynamicHeight := hstep

/-- Witness for C3: after latching height 7, running setText and save leaves
the flag false. -/
theorem pending_measurement_flag_witness :
    (applyCellOps (exCellC3.setDynamicHeight 7)
      [CellOp.opSetText ["x"], CellOp.opSave]).hasDynamicHeight = false := by
  have hmain := pending_measurement_flag (exCellC3.setDynamicHeight 7)
    [CellOp.opSetText ["x"], CellOp.opSave] 7 0 CellType.code [] [] false
  exact hmain.2.2.1 (by decide)

/-- Concrete markdown cell holding a stale rendered-HTML cache, witness input
for the cache-invalidation claim. -/
def exCellC7 : ViewCell :=
  { cellId := 3, cell_type := CellType.markdown, source := ["stale\n"],
    outputs := [], isEditing := false, textModel := none,
    html := some (Html.render "stale\n"), dynamicHeight := some 42 }

/-- C7: for a markdown cell, getHTML after setText(L) renders the current
text fresh (never a value cached from prior text); setText clears the
rendered-HTML cache but leaves the measured-height cache untouched. -/
theorem markdown_cache_invalidation (c : ViewCell) (L : List String)
    (hmd : c.cell_type = CellType.markdown) :
    ((c.setText L).getHTML).1 = some (Html.render ((c.setText L).getText)) ∧
    (c.setText L).html = none ∧
    (c.setText L).dynamicHeight = c.dynamicHeight := by
  refine ⟨?_, rfl, rfl⟩
  simp [ViewCell.setText, ViewCell.getHTML, hmd]

/-- Witness for C7: replacing the stale text renders the new text, the HTML
cache is cleared and the latched height 42 survives. -/
theorem markdown_cache_invalidation_witness :
    ((exCellC7.setText ["new"]).getHTML).1 = some (Html.render "new\n") ∧
    (exCellC7.setText ["new"]).html = none ∧
    (exCellC7.setText ["new"]).dynamicHeight = some 42 := by
  have hmain := markdown_cache_invalidation exCellC7 ["new"] rfl
  exact ⟨hmain.1.trans (by decide), hmain.2.1, hmain.2.2⟩

/-- Concrete editing cell with a mounted buffer, witness input for the
round-trip claim. -/
def exCellC8 : ViewCell :=
  { cellId := 4, cell_type := CellType.code, source := ["old\n"],
    outputs := [], isEditing := true, textModel := some ["a", "b"],
    html := none, dynamicHeight := none }

/-- C8: for an editing cell with a mounted buffer, save() followed by
getText() reproduces exactly the buffer lines, each line stored with its
newline terminator appended per the storage convention; save() copies the
lines into the source and leaves the buffer in place. -/
theorem save_roundtrip (c : ViewCell) (lines : List String)
    (hbuf : c.textModel = some lines) (hed : c.isEditing = true) :
    (c.save).getText = String.join (lines.map (fun s => s ++ "\n")) ∧
    (c.save).source = lines.map (fun s => s ++ "\n") ∧
    (c.save).textModel = some lines := by
  unfold ViewCell.save
  rw [hbuf]
  simp [hed, ViewCell.getText]

/-- Witness for C8: saving the two-line buffer stores both lines with
terminators and keeps the buffer. -/
theorem save_roundtrip_witness :
    (exCellC8.save).getText = "a\nb\n" ∧
    (exCellC8.save).textModel = some ["a", "b"] := by
  have hmain := save_roundtrip exCellC8 ["a", "b"] rfl rfl
  exact ⟨hmain.1.trans (by decide), hmain.2.2⟩

/-- C10: latching a measured height of exactly 0 makes hasDynamicHeight
report false (no pending measurement) while getHeight still returns the
heuristic of an unmeasured cell, because the truthiness guard in getHeight
treats a stored 0 as absent. -/
theorem zero_height_latch (c : ViewCell) (h : Int) :
    (c.setDynamicHeight 0).hasDynamicHeight = false ∧
    (c.setDynamicHeight 0).getHeight h
      = ({ c with dynamicHeight := none } : ViewCell).getHeight h := by
  refine ⟨rfl, ?_⟩
  simp [ViewCell.getHeight, ViewCell.setDynamicHeight, jsTruthy,
    ViewCell.lineCount]

/-- Normalized start index of Array.prototype.splice: a negative start counts
from the end of the array clamped at 0, a nonnegative start is clamped to
the length. -/
def jsSpliceStart (len : Nat) (start : Int) : Nat :=
  if start < 0 then len - (-start).toNat
  else min start.toNat len

/-- Array.prototype.splice(start, 0, [item]): insert one item at the
normalized start position. -/
def jsSpliceInsert {α : Type} (l : List α) (start : Int) (item : α) :
    List α :=
  l.take (jsSpliceStart l.length start)
    ++ item :: l.drop (jsSpliceStart l.length start)

/-- Array.prototype.splice(start, count): delete count items starting at the
normalized start position. -/
def jsSpliceDelete {α : Type} (l : List α) (start : Int) (count : Nat) :
    List α :=
  l.take (jsSpliceStart l.length start)
    ++ l.drop (jsSpliceStart l.length start + count)

/-- First index of an id in a list, comparing by identity. -/
def firstIdx (x : CellId) : List CellId → Option Nat
  | [] => none
  | y :: ys => if y = x then some 0 else (firstIdx x ys).map (fun n => n + 1)

/-- Array.prototype.indexOf: the first index of the element, or -1 when the
element is absent. -/
def jsIndexOf (l : List CellId) (x : CellId) : Int :=
  match firstIdx x l with
  | some n => (n : Int)
  | none => -1

/-- Modelled from the spec: state of the host virtualized list engine
(WorkbenchList, not under src/). items is the rendered order, holding the
identity of the record wrapped by each rendered cell; heights records the
height patches applied so far, latest first. -/
structure VirtualList where
  items : List CellId
  heights : List (CellId × Int)
deriving DecidableEq, Repr

/-- Modelled from the spec: updateDynamicHeight(index, cell, newHeight)
patches one item when index corresponds to cell; when index no longer
corresponds to cell (race with a structural edit) the call is a no-op, not
an error. -/
def VirtualList.updateDynamicHeight (l : VirtualList) (index : Int)
    (cell : CellId) (newHeight : Int) : VirtualList :=
  if 0 ≤ index ∧ l.items.get? index.toNat = some cell then
    { l with heights := (cell, newHeight) :: l.heights }
  else
    l

/-- Modelled from the spec: splice(start, deleteCount, insertItems) of the
virtualized list, with JS array splice index normalization. -/
def VirtualList.splice (l : VirtualList) (start : Int) (deleteCount : Nat)
    (insertItems : List CellId) : VirtualList :=
  { l with items := l.items.take (jsSpliceStart l.items.length start)
      ++ insertItems
      ++ l.items.drop (jsSpliceStart l.items.length start + deleteCount) }

/-- Modelled from the spec: insertCell(record, index) of the external
document model (NotebookEditorModel, not under src/) inserts the record at
the given index, with JS array splice index normalization. -/
def modelInsertCell (cells : List CellId) (x : CellId) (index : Int) :
    List CellId :=
  jsSpliceInsert cells index x

/-- Modelled from the spec: deleteCell(record) of the external document model
removes that record, located by identity. -/
def modelDeleteCell (cells : List CellId) (x : CellId) : List CellId :=
  cells.erase x

/-- State of the NotebookEditor: the backing model cells
(this.model.getNotebook().cells, as record identities), the ViewCell array
and the virtualized list. -/
structure NotebookEditor where
  modelCells : List CellId
  viewCells : List ViewCell
  list : VirtualList
deriving DecidableEq, Repr

/-- Direction argument of insertEmptyNotebookCell. -/
inductive Direction where
  | above
  | below
deriving DecidableEq, Repr

/-- NotebookEditor.insertEmptyNotebookCell(cell, type, direction): builds a
new ViewCell over a fresh empty record (freshId stands for the identity of
the newly allocated record; markdown cells start in editing mode), resolves
the anchor record index by identity with indexOf, and splices all three
representations at the same resolved index: the anchor index for above, the
anchor index plus one for below. There is no check for a missing anchor, so
indexOf may contribute -1 to the insertion index. -/
def NotebookEditor.insertEmptyNotebookCell (e : NotebookEditor)
    (cell : ViewCell) (ty : CellType) (direction : Direction)
    (freshId : CellId) : NotebookEditor :=
  let newCell := newViewCell freshId ty [] [] (decide (ty = CellType.markdown))
  let index := jsIndexOf e.modelCells cell.cellId
  let insertIndex := if direction = Direction.above then index else index + 1
  { modelCells := modelInsertCell e.modelCells freshId insertIndex,
    viewCells := jsSpliceInsert e.viewCells insertIndex newCell,
    list := e.list.splice insertIndex 0 [freshId] }

/-- NotebookEditor.deleteNotebookCell(cell): resolves the record index by
identity with indexOf, then removes at that index from the ViewCell array
and the list and by identity from the model. There is no check for a missing
anchor: indexOf then yields -1, which JS splice interprets relative to the
end of the array. -/
def NotebookEditor.deleteNotebookCell (e : NotebookEditor) (cell : ViewCell) :
    NotebookEditor :=
  let index := jsIndexOf e.modelCells cell.cellId
  { modelCells := modelDeleteCell e.modelCells cell.cellId,
    viewCells := jsSpliceDelete e.viewCells index 1,
    list := e.list.splice index 1 [] }

/-- Scheduled continuation of NotebookEditor.layoutElement(cell, height): in
the next tick it re-resolves the current index of the wrapped record in the
backing model by identity and calls updateDynamicHeight on the list. The
call is made unconditionally, also when indexOf yielded -1. -/
def NotebookEditor.layoutElementTick (e : NotebookEditor) (cell : ViewCell)
    (height : Int) : NotebookEditor :=
  let index := jsIndexOf e.modelCells cell.cellId
  { e with list := e.list.updateDynamicHeight index cell.cellId height }

/-- Trace of the updateDynamicHeight invocations performed by the scheduled
continuation of layoutElement: the source performs exactly one call, with
the freshly resolved index, the cell and the reported height. -/
def NotebookEditor.layoutElementTickCalls (e : NotebookEditor)
    (cell : ViewCell) (height : Int) : List (Int × CellId × Int) :=
  [(jsIndexOf e.modelCells cell.cellId, cell.cellId, height)]

/-- NotebookEditor.onHide(): sets isEditing to false on every ViewCell. No
other mutation is performed. -/
def NotebookEditor.onHide (e : NotebookEditor) : NotebookEditor :=
  { e with viewCells := e.viewCells.map (fun c => { c with isEditing := false }) }

/-- Helper: an absent id has no first index. -/
theorem firstIdx_not_mem {x : CellId} :
    ∀ {l : List CellId}, x ∉ l → firstIdx x l = none := by
  intro l
  induction l with
  | nil => intro _; rfl
  | cons y ys ih =>
    intro hx
    have hyx : y ≠ x := fun hcon => hx (hcon ▸ List.mem_cons_self y ys)
    have hxs : x ∉ ys := fun hcon => hx (List.mem_cons_of_mem y hcon)
    simp [firstIdx, hyx, ih hxs]

/-- Helper: a present id has a first index, and it is within bounds. -/
theorem firstIdx_mem {x : CellId} :
    ∀ {l : List CellId}, x ∈ l → ∃ n, firstIdx x l = some n ∧ n < l.length := by
  intro l
  induction l with
  | nil => intro hcon; cases hcon
  | cons y ys ih =>
    intro hx
    by_cases hyx : y = x
    · exact ⟨0, by simp [firstIdx, hyx], by simp⟩
    · have hxs : x ∈ ys := by
        cases List.mem_cons.mp hx with
        | inl heq => exact absurd heq.symm hyx
        | inr hmem => exact hmem
      obtain ⟨n, hn, hlt⟩ := ih hxs
      exact ⟨n + 1, by simp [firstIdx, hyx, hn], by simpa using Nat.succ_lt_succ hlt⟩

/-- Helper: erasing by identity removes exactly the element at the first
index. -/
theorem erase_eq_of_firstIdx {x : CellId} :
    ∀ {l : List CellId} {n : Nat}, firstIdx x l = some n →
      l.erase x = l.take n ++ l.drop (n + 1) := by
  intro l
  induction l with
  | nil => intro n hcon; cases hcon
  | cons y ys ih =>
    intro n hn
    by_cases hyx : y = x
    · simp [firstIdx, hyx] at hn
      subst hn
      simp [List.erase_cons, hyx]
    · simp [firstIdx, hyx] at hn
      obtain ⟨m, hm, hmn⟩ := hn
      subst hmn
      have hbne : (y == x) = false := by simp [hyx]
      simp [List.erase_cons, hbne, ih hm]

/-- Helper: jsIndexOf of a present id is its first index as an integer. -/
theorem jsIndexOf_of_firstIdx {l : List CellId} {x : CellId} {n : Nat}
    (h : firstIdx x l = some n) : jsIndexOf l x = (n : Int) := by
  simp [jsIndexOf, h]

/-- Helper: jsIndexOf of an absent id is -1. -/
theorem jsIndexOf_of_not_mem {l : List CellId} {x : CellId}
    (h : x ∉ l) : jsIndexOf l x = -1 := by
  simp [jsIndexOf, firstIdx_not_mem h]

/-- Helper: the normalized splice start of an in-range natural index is that
index. -/
theorem jsSpliceStart_coe {len m : Nat} (h : m ≤ len) :
    jsSpliceStart len (m : Int) = m := by
  unfold jsSpliceStart
  split
  · omega
  · simp [Int.toNat_natCast]
    omega

/-- Helper: mapping over a splice insertion at an in-range index commutes
with the insertion. -/
theorem map_jsSpliceInsert {α β : Type} (g : α → β) (l : List α) (a : α)
    (m : Nat) (hm : m ≤ l.length) :
    (jsSpliceInsert l (m : Int) a).map g
      = jsSpliceInsert (l.map g) (m : Int) (g a) := by
  have h1 : jsSpliceStart l.length (m : Int) = m := jsSpliceStart_coe hm
  have h2 : jsSpliceStart (l.map g).length (m : Int) = m := by
    rw [List.length_map]
    exact jsSpliceStart_coe hm
  simp [jsSpliceInsert, h1, h2, List.map_take, List.map_drop]

/-- Helper: mapping over a splice deletion at an in-range index commutes with
the deletion. -/
theorem map_jsSpliceDelete {α β : Type} (g : α → β) (l : List α)
    (m cnt : Nat) (hm : m ≤ l.length) :
    (jsSpliceDelete l (m : Int) cnt).map g
      = jsSpliceDelete (l.map g) (m : Int) cnt := by
  have h1 : jsSpliceStart l.length (m : Int) = m := jsSpliceStart_coe hm
  have h2 : jsSpliceStart (l.map g).length (m : Int) = m := by
    rw [List.length_map]
    exact jsSpliceStart_coe hm
  simp [jsSpliceDelete, h1, h2, List.map_take, List.map_drop]

/-- Helper: the first index is within bounds. -/
theorem firstIdx_lt_length {x : CellId} :
    ∀ {l : List CellId} {n : Nat}, firstIdx x l = some n → n < l.length := by
  intro l
  induction l with
  | nil => intro n hcon; cases hcon
  | cons y ys ih =>
    intro n hn
    by_cases hyx : y = x
    · simp [firstIdx, hyx] at hn
      subst hn
      simp
    · simp [firstIdx, hyx] at hn
      obtain ⟨m, hm, hmn⟩ := hn
      subst hmn
      simpa using Nat.succ_lt_succ (ih hm)

/-- Helper: the element spliced in at an in-range position is read back at
that position. -/
theorem get_insert_at {α : Type} (l : List α) (a : α) (m : Nat)
    (hm : m ≤ l.length) :
    (l.take m ++ a :: l.drop m)[m]? = some a := by
  have hlen : (l.take m).length = m := by
    rw [List.length_take]
    omega
  rw [List.getElem?_append_right hlen.le, hlen]
  simp

/-- The three parallel representations are pairwise identical in ordering:
the ViewCell array projected to the wrapped records, the backing model cells
and the rendered list order agree. -/
def aligned (e : NotebookEditor) : Prop :=
  e.viewCells.map ViewCell.cellId = e.modelCells ∧
  e.list.items = e.modelCells

instance alignedDecidable (e : NotebookEditor) : Decidable (aligned e) := by
  unfold aligned
  infer_instance

/-- Helper: unfolding equation of insertEmptyNotebookCell, with the local
bindings of the source inlined. -/
theorem insertEmptyNotebookCell_eq (e : NotebookEditor) (c : ViewCell)
    (ty : CellType) (d : Direction) (f : CellId) :
    e.insertEmptyNotebookCell c ty d f
      = { modelCells := modelInsertCell e.modelCells f
            (if d = Direction.above then jsIndexOf e.modelCells c.cellId
             else jsIndexOf e.modelCells c.cellId + 1),
          viewCells := jsSpliceInsert e.viewCells
            (if d = Direction.above then jsIndexOf e.modelCells c.cellId
             else jsIndexOf e.modelCells c.cellId + 1)
            (newViewCell f ty [] [] (decide (ty = CellType.markdown))),
          list := e.list.splice
            (if d = Direction.above then jsIndexOf e.modelCells c.cellId
             else jsIndexOf e.modelCells c.cellId + 1) 0 [f] } := rfl

/-- Helper: unfolding equation of deleteNotebookCell. -/
theorem deleteNotebookCell_eq (e : NotebookEditor) (c : ViewCell) :
    e.deleteNotebookCell c
      = { modelCells := modelDeleteCell e.modelCells c.cellId,
          viewCells := jsSpliceDelete e.viewCells
            (jsIndexOf e.modelCells c.cellId) 1,
          list := e.list.splice (jsIndexOf e.modelCells c.cellId) 1 [] } := rfl

/-- Helper: reading the items of a spliced virtual list. -/
theorem splice_items (l : VirtualList) (start : Int) (cnt : Nat)
    (ins : List CellId) :
    (l.splice start cnt ins).items
      = l.items.take (jsSpliceStart l.items.length start) ++ ins
        ++ l.items.drop (jsSpliceStart l.items.length start + cnt) := rfl

/-- Helper: splice insertion at an in-range natural index. -/
theorem jsSpliceInsert_coe {α : Type} (l : List α) (a : α) (m : Nat)
    (hm : m ≤ l.length) :
    jsSpliceInsert l (m : Int) a = l.take m ++ a :: l.drop m := by
  unfold jsSpliceInsert
  rw [jsSpliceStart_coe hm]

/-- Helper: splice deletion at an in-range natural index. -/
theorem jsSpliceDelete_coe {α : Type} (l : List α) (m cnt : Nat)
    (hm : m ≤ l.length) :
    jsSpliceDelete l (m : Int) cnt = l.take m ++ l.drop (m + cnt) := by
  unfold jsSpliceDelete
  rw [jsSpliceStart_coe hm]

/-- Helper: a structural insert whose anchor is present in the backing model
preserves the three-way alignment. -/
theorem aligned_insert_step (e : NotebookEditor) (c : ViewCell)
    (ty : CellType) (d : Direction) (f : CellId) (hal : aligned e)
    (hmem : c.cellId ∈ e.modelCells) :
    aligned (e.insertEmptyNotebookCell c ty d f) := by
  obtain ⟨hview, hlist⟩ := hal
  obtain ⟨n, hn, hlt⟩ := firstIdx_mem hmem
  have hidx : jsIndexOf e.modelCells c.cellId = (n : Int) :=
    jsIndexOf_of_firstIdx hn
  have key : ∀ m : Nat, m ≤ e.modelCells.length →
      aligned { modelCells := modelInsertCell e.modelCells f (m : Int),
                viewCells := jsSpliceInsert e.viewCells (m : Int)
                  (newViewCell f ty [] [] (decide (ty = CellType.markdown))),
                list := e.list.splice (m : Int) 0 [f] } := by
    intro m hm
    have hvm : m ≤ e.viewCells.length := by
      have : e.viewCells.length = e.modelCells.length := by
        rw [← hview, List.length_map]
      omega
    constructor
    · show (jsSpliceInsert e.viewCells (m : Int) _).map ViewCell.cellId
        = modelInsertCell e.modelCells f (m : Int)
      rw [map_jsSpliceInsert ViewCell.cellId e.viewCells _ m hvm, hview]
      rfl
    · show (e.list.splice (m : Int) 0 [f]).items
        = modelInsertCell e.modelCells f (m : Int)
      rw [splice_items, hlist, jsSpliceStart_coe hm, modelInsertCell,
        jsSpliceInsert_coe e.modelCells f m hm]
      simp
  cases d with
  | above =>
    rw [insertEmptyNotebookCell_eq, hidx, if_pos rfl]
    exact key n (le_of_lt hlt)
  | below =>
    have hne : Direction.below ≠ Direction.above := by decide
    have hcast : ((n : Int) + 1) = ((n + 1 : Nat) : Int) := by push_cast; ring
    rw [insertEmptyNotebookCell_eq, hidx, if_neg hne, hcast]
    exact key (n + 1) (by omega)

/-- Helper: a structural delete whose anchor is present in the backing model
preserves the three-way alignment. -/
theorem aligned_delete_step (e : NotebookEditor) (c : ViewCell)
    (hal : aligned e) (hmem : c.cellId ∈ e.modelCells) :
    aligned (e.deleteNotebookCell c) := by
  obtain ⟨hview, hlist⟩ := hal
  obtain ⟨n, hn, hlt⟩ := firstIdx_mem hmem
  have hidx : jsIndexOf e.modelCells c.cellId = (n : Int) :=
    jsIndexOf_of_firstIdx hn
  have herase := erase_eq_of_firstIdx hn
  have hvm : n ≤ e.viewCells.length := by
    have : e.viewCells.length = e.modelCells.length := by
      rw [← hview, List.length_map]
    omega
  rw [deleteNotebookCell_eq, hidx]
  constructor
  · show (jsSpliceDelete e.viewCells (n : Int) 1).map ViewCell.cellId
        = modelDeleteCell e.modelCells c.cellId
    rw [map_jsSpliceDelete ViewCell.cellId e.viewCells n 1 hvm, hview,
      modelDeleteCell, herase, jsSpliceDelete_coe e.modelCells n 1
        (le_of_lt hlt)]
  · show (e.list.splice (n : Int) 1 []).items
        = modelDeleteCell e.modelCells c.cellId
    rw [splice_items, hlist, jsSpliceStart_coe (le_of_lt hlt),
      modelDeleteCell, herase]
    simp

/-- Structural edit operations issued against the editor, identified by the
anchor record id: the source operations consult nothing of the anchor
ViewCell beyond the identity of its wrapped record. -/
inductive EditOp where
  | insert (anchorId : CellId) (ty : CellType) (direction : Direction)
      (freshId : CellId)
  | delete (anchorId : CellId)
deriving DecidableEq

/-- A ViewCell reference standing for the anchor argument of a structural
edit; only the identity of the wrapped record is consulted. -/
def anchorRef (id : CellId) : ViewCell :=
  newViewCell id CellType.code [] [] false

/-- Effect of one structural edit on the editor. -/
def applyEditOp (e : NotebookEditor) : EditOp → NotebookEditor
  | EditOp.insert a ty d f => e.insertEmptyNotebookCell (anchorRef a) ty d f
  | EditOp.delete a => e.deleteNotebookCell (anchorRef a)

/-- Effect of a sequence of structural edits, first operation first. -/
def applyEditOps (e : NotebookEditor) (ops : List EditOp) : NotebookEditor :=
  ops.foldl applyEditOp e

/-- Anchor record id of a structural edit. -/
def EditOp.anchorId : EditOp → CellId
  | EditOp.insert a _ _ _ => a
  | EditOp.delete a => a

/-- Each operation of the sequence has its anchor present in the backing
model at the moment the operation runs. -/
def anchorsPresent : NotebookEditor → List EditOp → Prop
  | _, [] => True
  | e, op :: rest =>
    op.anchorId ∈ e.modelCells ∧ anchorsPresent (applyEditOp e op) rest

instance anchorsPresentDecidable : (e : NotebookEditor) → (ops : List EditOp) →
    Decidable (anchorsPresent e ops)
  | _, [] => Decidable.isTrue trivial
  | e, op :: rest =>
    haveI : Decidable (anchorsPresent (applyEditOp e op) rest) :=
      anchorsPresentDecidable (applyEditOp e op) rest
    inferInstanceAs (Decidable (op.anchorId ∈ e.modelCells ∧
      anchorsPresent (applyEditOp e op) rest))

/-- Helper: a prefix of an anchor-present sequence is anchor-present. -/
theorem anchorsPresent_take (e : NotebookEditor) (ops : List EditOp)
    (h : anchorsPresent e ops) (k : Nat) :
    anchorsPresent e (ops.take k) := by
  induction ops generalizing e k with
  | nil =>
    rw [List.take_nil]
    exact trivial
  | cons op rest ih =>
    cases k with
    | zero => exact trivial
    | succ k2 =>
      rw [List.take_succ_cons]
      exact ⟨h.1, ih (applyEditOp e op) h.2 k2⟩

/-- Helper: one anchored structural edit preserves the alignment. -/
theorem aligned_applyEditOp (e : NotebookEditor) (op : EditOp)
    (hal : aligned e) (hmem : op.anchorId ∈ e.modelCells) :
    aligned (applyEditOp e op) := by
  cases op with
  | insert a ty d f => exact aligned_insert_step e (anchorRef a) ty d f hal hmem
  | delete a => exact aligned_delete_step e (anchorRef a) hal hmem

/-- C4: for every sequence of insert-cell and delete-cell operations whose
anchor is present in the backing model when the operation runs, after each
operation completes (that is, after every prefix of the sequence) the
ViewCell array, the backing model cell array and the rendered order of the
virtualized list are pairwise identical in ordering. -/
theorem ordering_law (e : NotebookEditor) (ops : List EditOp)
    (hal : aligned e) (hp : anchorsPresent e ops) :
    ∀ k, aligned (applyEditOps e (ops.take k)) := by
  intro k
  induction ops generalizing e k with
  | nil =>
    rw [List.take_nil]
    exact hal
  | cons op rest ih =>
    cases k with
    | zero => exact hal
    | succ k2 =>
      rw [List.take_succ_cons]
      show aligned (applyEditOps (applyEditOp e op) (rest.take k2))
      exact ih (applyEditOp e op) (aligned_applyEditOp e op hal hp.1) hp.2 k2

/-- Concrete three-cell editor used by the editor-level witnesses. -/
def exEditorBase : NotebookEditor :=
  { modelCells := [1, 2, 3],
    viewCells := [newViewCell 1 CellType.code ["a"] [] false,
                  newViewCell 2 CellType.code ["b"] [] false,
                  newViewCell 3 CellType.markdown ["c"] [] false],
    list := { items := [1, 2, 3], heights := [] } }

/-- Concrete edit sequence: delete the middle cell, then insert above the
last cell. -/
def exOpsC4 : List EditOp :=
  [EditOp.delete 2, EditOp.insert 3 CellType.markdown Direction.above 4]

/-- Witness for C4: the alignment holds after running the concrete edit
sequence on the three-cell editor. -/
theorem ordering_law_witness : aligned (applyEditOps exEditorBase exOpsC4) := by
  have hmain := ordering_law exEditorBase exOpsC4 (by decide) (by decide)
  have h2 := hmain exOpsC4.length
  rwa [List.take_length] at h2

/-- C5: when the backing record wrapped by the anchor is currently at first
index i of the backing model (resolved by identity at call time),
insertEmptyNotebookCell places the fresh record at index i of the backing
model for direction above and at index i + 1 for direction below. -/
theorem insert_direction_correct (e : NotebookEditor) (anchor : ViewCell)
    (ty : CellType) (f : CellId) (i : Nat)
    (hi : firstIdx anchor.cellId e.modelCells = some i) :
    (e.insertEmptyNotebookCell anchor ty Direction.above f).modelCells[i]?
      = some f ∧
    (e.insertEmptyNotebookCell anchor ty Direction.below f).modelCells[i + 1]?
      = some f := by
  have hlt : i < e.modelCells.length := firstIdx_lt_length hi
  have hidx : jsIndexOf e.modelCells anchor.cellId = (i : Int) :=
    jsIndexOf_of_firstIdx hi
  constructor
  · rw [insertEmptyNotebookCell_eq, hidx]
    show (modelInsertCell e.modelCells f
      (if Direction.above = Direction.above then (i : Int)
       else (i : Int) + 1))[i]? = some f
    rw [if_pos rfl, modelInsertCell,
      jsSpliceInsert_coe e.modelCells f i (le_of_lt hlt)]
    exact get_insert_at e.modelCells f i (le_of_lt hlt)
  · have hne : Direction.below ≠ Direction.above := by decide
    have hcast : ((i : Int) + 1) = ((i + 1 : Nat) : Int) := by push_cast; ring
    rw [insertEmptyNotebookCell_eq, hidx]
    show (modelInsertCell e.modelCells f
      (if Direction.below = Direction.above then (i : Int)
       else (i : Int) + 1))[i + 1]? = some f
    rw [if_neg hne, hcast, modelInsertCell,
      jsSpliceInsert_coe e.modelCells f (i + 1) (by omega)]
    exact get_insert_at e.modelCells f (i + 1) (by omega)

/-- Concrete editor after an unrelated deletion: cell 1 is removed first, so
the anchor with record 2 now sits at index 0. -/
def exEditorC5 : NotebookEditor :=
  exEditorBase.deleteNotebookCell (newViewCell 1 CellType.code ["a"] [] false)

/-- Witness for C5: after the unrelated deletion the anchor record 2 is at
index 0; inserting above lands at 0 and below lands at 1. -/
theorem insert_direction_correct_witness :
    (exEditorC5.insertEmptyNotebookCell (anchorRef 2) CellType.code
        Direction.above 9).modelCells[0]? = some 9 ∧
    (exEditorC5.insertEmptyNotebookCell (anchorRef 2) CellType.code
        Direction.below 9).modelCells[1]? = some 9 := by
  exact insert_direction_correct exEditorC5 (anchorRef 2) CellType.code 9 0
    (by decide)

/-- Helper: the normalized splice start of -1 is the last position. -/
theorem jsSpliceStart_neg_one (len : Nat) : jsSpliceStart len (-1) = len - 1 := by
  unfold jsSpliceStart
  rw [if_pos (by norm_num)]
  rfl

/-- Helper: splice deletion of one element at start -1 removes the last
element. -/
theorem jsSpliceDelete_neg_one {α : Type} (l : List α) :
    jsSpliceDelete l (-1) 1 = l.dropLast := by
  unfold jsSpliceDelete
  rw [jsSpliceStart_neg_one, List.dropLast_eq_take,
    List.drop_eq_nil_of_le (by omega), List.append_nil]

/-- Helper: splice insertion at start 0 prepends the element. -/
theorem jsSpliceInsert_zero {α : Type} (l : List α) (a : α) :
    jsSpliceInsert l 0 a = a :: l := by
  unfold jsSpliceInsert
  have h0 : jsSpliceStart l.length 0 = 0 := by
    unfold jsSpliceStart
    simp
  rw [h0]
  simp

/-- Counterexample for C6: on the three-cell editor, deleting with an anchor
whose record 9 is absent from the backing model mutates the ViewCell array
and the list order, and inserting below such an anchor mutates the ViewCell
array; the operations do not fail fast without mutation. -/
theorem missing_anchor_mutates :
    (exEditorBase.deleteNotebookCell (anchorRef 9)).viewCells
        ≠ exEditorBase.viewCells ∧
    (exEditorBase.deleteNotebookCell (anchorRef 9)).list.items
        ≠ exEditorBase.list.items ∧
    (exEditorBase.insertEmptyNotebookCell (anchorRef 9) CellType.code
        Direction.below 7).viewCells ≠ exEditorBase.viewCells := by
  decide

/-- C6 as amended: there is no defensive anchor check; when the anchor record
is absent, indexOf yields -1 and the JS splices run with start -1 (counted
from the end): deleteNotebookCell removes the last ViewCell and the last
list item while the backing model (deleting by identity) is unchanged, and
insertEmptyNotebookCell places the new cell at a guessed position, index 0
for below and before the last element for above. -/
theorem missing_anchor_splices (e : NotebookEditor) (c : ViewCell)
    (ty : CellType) (f : CellId) (habs : c.cellId ∉ e.modelCells) :
    (e.deleteNotebookCell c).viewCells = e.viewCells.dropLast ∧
    (e.deleteNotebookCell c).modelCells = e.modelCells ∧
    (e.deleteNotebookCell c).list.items = e.list.items.dropLast ∧
    (e.insertEmptyNotebookCell c ty Direction.below f).viewCells
      = newViewCell f ty [] [] (decide (ty = CellType.markdown))
          :: e.viewCells ∧
    (e.insertEmptyNotebookCell c ty Direction.above f).viewCells
      = e.viewCells.take (e.viewCells.length - 1)
        ++ newViewCell f ty [] [] (decide (ty = CellType.markdown))
          :: e.viewCells.drop (e.viewCells.length - 1) := by
  have hneg : jsIndexOf e.modelCells c.cellId = -1 :=
    jsIndexOf_of_not_mem habs
  refine ⟨?_, ?_, ?_, ?_, ?_⟩
  · rw [deleteNotebookCell_eq, hneg]
    exact jsSpliceDelete_neg_one e.viewCells
  · rw [deleteNotebookCell_eq]
    exact List.erase_of_not_mem habs
  · rw [deleteNotebookCell_eq, hneg, splice_items, jsSpliceStart_neg_one,
      List.dropLast_eq_take, List.drop_eq_nil_of_le (by omega)]
    simp
  · have hne : Direction.below ≠ Direction.above := by decide
    rw [insertEmptyNotebookCell_eq, hneg, if_neg hne]
    norm_num
    exact jsSpliceInsert_zero e.viewCells _
  · rw [insertEmptyNotebookCell_eq, hneg, if_pos rfl]
    show jsSpliceInsert e.viewCells (-1) _ = _
    unfold jsSpliceInsert
    rw [jsSpliceStart_neg_one]

/-- Witness for the amended C6: on the three-cell editor with absent record
9, the delete drops the last ViewCell. -/
theorem missing_anchor_splices_witness :
    (exEditorBase.deleteNotebookCell (anchorRef 9)).viewCells
      = exEditorBase.viewCells.dropLast ∧
    (exEditorBase.deleteNotebookCell (anchorRef 9)).modelCells
      = exEditorBase.modelCells := by
  have hmain := missing_anchor_splices exEditorBase (anchorRef 9)
    CellType.code 7 (by decide)
  exact ⟨hmain.1, hmain.2.1⟩

/-- Concrete ViewCell wrapping record 3, deleted from the base editor before
the deferred height update fires. -/
def exDeletedCell : ViewCell := newViewCell 3 CellType.markdown ["c"] [] false

/-- Concrete editor obtained by deleting record 3 from the base editor. -/
def exEditorC1 : NotebookEditor := exEditorBase.deleteNotebookCell exDeletedCell

/-- Counterexample for C1: when the deferred continuation fires for the
deleted cell, it does call VirtualList.updateDynamicHeight for that cell:
the call trace is the single invocation with the stale resolved index -1,
the deleted cell and the reported height, not the empty trace. -/
theorem deleted_cell_update_still_called :
    exEditorC1.layoutElementTickCalls exDeletedCell 300 = [(-1, 3, 300)] ∧
    exEditorC1.layoutElementTickCalls exDeletedCell 300 ≠ [] := by
  decide

/-- Helper: unfolding equation of the scheduled layoutElement
continuation. -/
theorem layoutElementTick_eq (e : NotebookEditor) (c : ViewCell) (h : Int) :
    e.layoutElementTick c h
      = { e with
          list := e.list.updateDynamicHeight (jsIndexOf e.modelCells c.cellId)
                    c.cellId h } := rfl

/-- C1 as amended: executing the scheduled continuation for a cell whose
record is no longer in the backing model does not throw and leaves the whole
editor state (in particular the VirtualList) unchanged; the continuation
still performs one updateDynamicHeight call, with index -1 for the deleted
cell, and the drop happens inside updateDynamicHeight by its stale-index
no-op contract rather than by skipping the call. -/
theorem deleted_cell_tick_noop (e : NotebookEditor) (c : ViewCell) (h : Int)
    (habs : c.cellId ∉ e.modelCells) :
    e.layoutElementTick c h = e ∧
    e.layoutElementTickCalls c h = [(-1, c.cellId, h)] := by
  have hneg : jsIndexOf e.modelCells c.cellId = -1 :=
    jsIndexOf_of_not_mem habs
  constructor
  · rw [layoutElementTick_eq, hneg]
    unfold VirtualList.updateDynamicHeight
    rw [if_neg (by intro hcon; exact absurd hcon.1 (by norm_num))]
  · unfold NotebookEditor.layoutElementTickCalls
    rw [hneg]

/-- Witness for the amended C1: the deferred update for the deleted record 3
leaves the editor unchanged. -/
theorem deleted_cell_tick_noop_witness :
    exEditorC1.layoutElementTick exDeletedCell 300 = exEditorC1 :=
  (deleted_cell_tick_noop exEditorC1 exDeletedCell 300 (by decide)).1

/-- Concrete editing cell whose mounted buffer differs from the stored
source. -/
def exCellC9 : ViewCell :=
  { cellId := 7, cell_type := CellType.code, source := ["old\n"],
    outputs := [], isEditing := true, textModel := some ["edited"],
    html := none, dynamicHeight := none }

/-- Concrete one-cell editor with an unsaved edit in progress. -/
def exEditorC9 : NotebookEditor :=
  { modelCells := [7], viewCells := [exCellC9],
    list := { items := [7], heights := [] } }

/-- Counterexample for C9: onHide does not invoke save() on the ViewCells:
on the one-cell editor with an unsaved edit, the state after onHide differs
from the state the claim describes (save then clear editing); the stored
text stays at the old content while a save would have flushed the buffer. -/
theorem onHide_does_not_save :
    (exEditorC9.onHide).viewCells
      ≠ exEditorC9.viewCells.map (fun c => { c.save with isEditing := false }) ∧
    (exEditorC9.onHide).viewCells.map ViewCell.getText = ["old\n"] ∧
    (exEditorC9.viewCells.map (fun c => c.save)).map ViewCell.getText
      = ["edited\n"] := by
  decide

/-- C9 as amended: onHide turns off editing mode on every ViewCell but does
not invoke save(): the stored source text and the mounted buffers are left
untouched, as are the backing model and the list. -/
theorem onHide_clears_editing_without_save (e : NotebookEditor) :
    ((e.onHide).viewCells.map (fun c => c.isEditing))
      = e.viewCells.map (fun _ => false) ∧
    ((e.onHide).viewCells.map ViewCell.getText)
      = e.viewCells.map ViewCell.getText ∧
    ((e.onHide).viewCells.map ViewCell.textModel)
      = e.viewCells.map ViewCell.textModel ∧
    (e.onHide).modelCells = e.modelCells ∧
    (e.onHide).list = e.list := by
  unfold NotebookEditor.onHide
  refine ⟨?_, ?_, ?_, rfl, rfl⟩ <;>
    · rw [List.map_map]
      rfl
